import Mathlib

/-!
Verification development for the `tdi::TableData` record abstraction
(`src/include/tdi/common/tdi_table_data.hpp`).

The header declares a pure-virtual interface; the concrete
encoding/activation engine is described by the specification
(field codec, field store, oneof activation tracker, record facade).
Definitions below are therefore modelled from the spec where the
repository ships only the interface declarations; the overload-surface
facts are taken directly from the header.
-/

namespace TDI

/-- Status codes returned by every public operation (spec section 7). -/
inductive Status where
  | success
  | unknownField
  | inactiveField
  | typeMismatch
  | valueOutOfRange
  | sizeMismatch
  | notAContainer
  | notSet
  | noParent
deriving DecidableEq, Repr

/-- Ceiling of bits to bytes: number of bytes holding a `w`-bit field. -/
def ceilBytes (w : Nat) : Nat := (w + 7) / 8

/-- Big-endian (network order) byte sequence of length `n` for value `v`:
most-significant byte first, zero-padded at the MSBs. -/
def toBytesBE (n : Nat) (v : Nat) : List Nat :=
  match n with
  | 0 => []
  | m + 1 => toBytesBE m (v / 256) ++ [v % 256]

/-- Reassemble a big-endian byte sequence into a natural number. -/
def fromBytesBE (bs : List Nat) : Nat :=
  bs.foldl (fun acc b => acc * 256 + b) 0

/-- Modelled from the spec: `encodeScalar(width_bits, value)` of the Field
Codec (spec 4.1), absent from src (the header declares only the interface).
Produces the minimal network-order byte sequence of length `ceil(w/8)`;
fails with `ValueOutOfRange` if the value requires more than `w` bits. -/
def encodeScalar (w : Nat) (v : Nat) : Except Status (List Nat) :=
  if 2 ^ w ≤ v then .error .valueOutOfRange
  else .ok (toBytesBE (ceilBytes w) v)

/-- Modelled from the spec: `decodeScalar(width_bits, bytes)` of the Field
Codec (spec 4.1), absent from src. Fails with `SizeMismatch` if the byte
sequence does not have exactly `ceil(w/8)` bytes. -/
def decodeScalar (w : Nat) (bs : List Nat) : Except Status Nat :=
  if bs.length = ceilBytes w then .ok (fromBytesBE bs)
  else .error .sizeMismatch

theorem toBytesBE_length (n v : Nat) : (toBytesBE n v).length = n := by
  induction n generalizing v with
  | zero => rfl
  | succ m ih => simp [toBytesBE, ih]

theorem fromBytesBE_toBytesBE (n v : Nat) :
    fromBytesBE (toBytesBE n v) = v % 256 ^ n := by
  induction n generalizing v with
  | zero => simp [toBytesBE, fromBytesBE, Nat.mod_one]
  | succ m ih =>
    have happ : fromBytesBE (toBytesBE m (v / 256) ++ [v % 256])
        = fromBytesBE (toBytesBE m (v / 256)) * 256 + v % 256 := by
      simp [fromBytesBE, List.foldl_append]
    rw [toBytesBE, happ, ih]
    have h256 : (256 : Nat) ^ (m + 1) = 256 * 256 ^ m := by ring
    rw [h256, Nat.mod_mul]
    omega

theorem width_le_bits_of_ceilBytes (w : Nat) : w ≤ 8 * ceilBytes w := by
  unfold ceilBytes
  omega

theorem lt_pow256_ceilBytes {w v : Nat} (h : v < 2 ^ w) :
    v < 256 ^ ceilBytes w := by
  have h1 : (2 : Nat) ^ w ≤ 2 ^ (8 * ceilBytes w) :=
    Nat.pow_le_pow_right (by norm_num) (width_le_bits_of_ceilBytes w)
  have h2 : (2 : Nat) ^ (8 * ceilBytes w) = 256 ^ ceilBytes w := by
    rw [pow_mul]
    norm_num
  omega

theorem encode_decode_roundTrip {w v : Nat} (hv : v < 2 ^ w) :
    (encodeScalar w v).bind (decodeScalar w) = .ok v := by
  unfold encodeScalar
  rw [if_neg (by omega)]
  show decodeScalar w (toBytesBE (ceilBytes w) v) = .ok v
  unfold decodeScalar
  rw [if_pos (toBytesBE_length _ _), fromBytesBE_toBytesBE]
  rw [Nat.mod_eq_of_lt (lt_pow256_ceilBytes hv)]

/-- Value kinds declared by the schema for a field (spec section 3). -/
inductive Kind where
  | uintK
  | bytesK
  | intListK
  | boolListK
  | stringListK
  | floatK
  | boolK
  | stringK
  | containerK
  | u64ListK
deriving DecidableEq, Repr

/-- Schema entry for one field: bit width, value kind, optional
oneof-group identifier (spec section 3, Schema entry). -/
structure FieldInfo where
  width : Nat
  kind : Kind
  oneofGroup : Option Nat
deriving DecidableEq, Repr

/-- A value slot in the field store. Scalar (raw ≤64-bit) and byte-array
values share the network-order byte representation produced by the codec;
float payloads are carried as opaque bit patterns and container children
as opaque handles, since no operation below inspects them. -/
inductive Value where
  | vBytes (bs : List Nat)
  | vIntList (xs : List Nat)
  | vBoolList (xs : List Bool)
  | vStringList (xs : List String)
  | vFloat (bits : Nat)
  | vBool (b : Bool)
  | vString (s : String)
  | vRecords (children : List Nat)
deriving DecidableEq, Repr

/-- Back-reference to the owning object: a Table, a Learn-event
descriptor, or neither — never both (spec section 3, Record attributes). -/
inductive Parent where
  | noParent
  | table (t : Nat)
  | learn (l : Nat)
deriving DecidableEq, Repr

/-- Modelled from the spec: the Record (TableData instance) state, absent
from src (the header declares only the pure-virtual interface). A schema
handle, the fixed allocation subset, the current activity set, the field
store, and the parent back-reference (spec section 3). `allocated` is the
field subset chosen at allocation and never changes; `activity` starts
equal to it and is the set `isActive` reports, shrunk and re-grown by
oneof writes (spec 4.3): a set on a group member must still succeed after
a sibling deactivated it (spec property 4 and the header's `isActive`
doc, case 2a), so the setters gate on `allocated` while `isActive` and
the getters consult `activity` (the spec resolves a read on a
just-deactivated field to `InactiveField`, section 9). -/
structure Record where
  schema : Nat → Option FieldInfo
  allocated : List Nat
  activity : List Nat
  store : List (Nat × Value)
  parent : Parent

/-- Oneof-group of a field under a record's schema. -/
def groupOf (r : Record) (fid : Nat) : Option Nat :=
  (r.schema fid).bind FieldInfo.oneofGroup

/-- Modelled from the spec: oneof activation tracking (spec 4.3). When the
written field belongs to a oneof-group, every other member of that group
is removed from the activity set and the written field (re)activated;
fields outside the group stay active. For a restricted allocation the
excluded members were never active, so the filter is a no-op on them. -/
def applyOneof (r : Record) (fid : Nat) : Record :=
  match groupOf r fid with
  | some g =>
      { r with activity :=
          fid :: r.activity.filter (fun f2 => decide (groupOf r f2 ≠ some g)) }
  | none => r

/-- First-match lookup in the field store. -/
def lookupStore (store : List (Nat × Value)) (fid : Nat) : Option Value :=
  match store with
  | [] => none
  | (f, v) :: rest => if f = fid then some v else lookupStore rest fid

/-- Commit a validated write: apply oneof deactivation, then install the
new slot value (first-match lookup makes the prepend a replacement). -/
def commit (r : Record) (fid : Nat) (val : Value) : Record :=
  let r1 := applyOneof r fid
  { r1 with store := (fid, val) :: r1.store }

/-- Modelled from the spec: the raw ≤64-bit `setValue` overload
(header lines 64-65; spec 4.2 and 4.5). Validation order per spec 7:
`UnknownField`, `InactiveField`, `TypeMismatch`, then `ValueOutOfRange`
if the value needs more than the declared bit width; on success the
encoded network-order bytes are stored and oneof siblings deactivated. -/
def setU64 (r : Record) (fid : Nat) (v : Nat) : Status × Record :=
  match r.schema fid with
  | none => (.unknownField, r)
  | some info =>
    if fid ∈ r.allocated then
      if info.kind = Kind.uintK then
        if v < 2 ^ info.width then
          (.success, commit r fid (Value.vBytes (toBytesBE (ceilBytes info.width) v)))
        else (.valueOutOfRange, r)
      else (.typeMismatch, r)
    else (.inactiveField, r)

/-- Modelled from the spec: the byte-array `setValue` overload (header
lines 81-83; spec 4.1 `encodeBytes` and 4.2). The supplied buffer is the
list `bs`, whose length is the supplied size; a size different from
`ceil(width/8)` is rejected with `SizeMismatch`. Valid on scalar and
byte-array fields (fields of all sizes). -/
def setBytes (r : Record) (fid : Nat) (bs : List Nat) : Status × Record :=
  match r.schema fid with
  | none => (.unknownField, r)
  | some info =>
    if fid ∈ r.allocated then
      if info.kind = Kind.uintK ∨ info.kind = Kind.bytesK then
        if bs.length = ceilBytes info.width then
          (.success, commit r fid (Value.vBytes bs))
        else (.sizeMismatch, r)
      else (.typeMismatch, r)
    else (.inactiveField, r)

/-- Modelled from the spec: the remaining typed `setValue` overloads
(header lines 93-171), as one generic kind-checked setter (spec section 9,
closed tagged-value variant). `k` is the kind the invoked overload
demands; a field of any other kind is rejected with `TypeMismatch`. -/
def setTyped (r : Record) (fid : Nat) (k : Kind) (val : Value) : Status × Record :=
  match r.schema fid with
  | none => (.unknownField, r)
  | some info =>
    if fid ∈ r.allocated then
      if info.kind = k then (.success, commit r fid val)
      else (.typeMismatch, r)
    else (.inactiveField, r)

/-- Modelled from the spec: the raw ≤64-bit `getValue` overload (header
lines 187-188; spec 4.2). Fails with `NotSet` on a never-written field;
otherwise decodes the stored network-order bytes. -/
def getU64 (r : Record) (fid : Nat) : Except Status Nat :=
  match r.schema fid with
  | none => .error .unknownField
  | some info =>
    if fid ∈ r.activity then
      if info.kind = Kind.uintK then
        match lookupStore r.store fid with
        | none => .error .notSet
        | some (Value.vBytes bs) => .ok (fromBytesBE bs)
        | some _ => .error .typeMismatch
      else .error .typeMismatch
    else .error .inactiveField

/-- Modelled from the spec: the byte-array `getValue` overload (header
lines 203-205; spec 4.1-4.2). The requested size must equal
`ceil(width/8)` or the call fails with `SizeMismatch`. -/
def getBytes (r : Record) (fid : Nat) (size : Nat) : Except Status (List Nat) :=
  match r.schema fid with
  | none => .error .unknownField
  | some info =>
    if fid ∈ r.activity then
      if info.kind = Kind.uintK ∨ info.kind = Kind.bytesK then
        if size = ceilBytes info.width then
          match lookupStore r.store fid with
          | none => .error .notSet
          | some (Value.vBytes bs) => .ok bs
          | some _ => .error .typeMismatch
        else .error .sizeMismatch
      else .error .typeMismatch
    else .error .inactiveField

/-- Modelled from the spec: the remaining typed `getValue` overloads
(header lines 215-297), as one generic kind-checked getter. -/
def getTyped (r : Record) (fid : Nat) (k : Kind) : Except Status Value :=
  match r.schema fid with
  | none => .error .unknownField
  | some info =>
    if fid ∈ r.activity then
      if info.kind = k then
        match lookupStore r.store fid with
        | none => .error .notSet
        | some v => .ok v
      else .error .typeMismatch
    else .error .inactiveField

/-- Modelled from the spec: `isActive` (header lines 385-386; spec 4.2):
membership test against the activity set, never failing for a
schema-valid field id. -/
def isActive (r : Record) (fid : Nat) : Except Status Bool :=
  match r.schema fid with
  | none => .error .unknownField
  | some _ => .ok (decide (fid ∈ r.activity))

/-- Modelled from the spec: the Table overload of `getParent` (header
line 355; spec section 7 `NoParent`). -/
def getParentTable (r : Record) : Except Status Nat :=
  match r.parent with
  | Parent.table t => .ok t
  | _ => .error .noParent

/-- Modelled from the spec: the Learn overload of `getParent` (header
line 366; spec section 7 `NoParent`). -/
def getParentLearn (r : Record) : Except Status Nat :=
  match r.parent with
  | Parent.learn l => .ok l
  | _ => .error .noParent

/-- The value kinds addressed by the accessor overloads of the header. -/
inductive AccessorKind where
  | rawU64
  | byteArray
  | idList
  | boolList
  | stringList
  | floatV
  | boolV
  | containerList
  | stringV
  | u64List
deriving DecidableEq, Repr

/-- The `setValue` overload surface of `TableData`
(header lines 64-171, in declaration order). -/
def setValueOverloads : List AccessorKind :=
  [.rawU64, .byteArray, .idList, .boolList, .stringList,
   .floatV, .boolV, .containerList, .stringV]

/-- The `getValue` overload surface of `TableData`
(header lines 187-297, in declaration order). -/
def getValueOverloads : List AccessorKind :=
  [.rawU64, .byteArray, .idList, .boolList, .stringList,
   .floatV, .boolV, .u64List, .containerList, .stringV]

/-- Concrete demonstration schema: fields 1,2,3 are 8-bit scalars in
oneof-group 0; field 4 is a 28-bit byte-array field; field 5 a 16-bit
scalar; field 6 a 65-bit byte-array field; field 7 a uint64-list field. -/
def demoSchema : Nat → Option FieldInfo := fun fid =>
  if fid = 1 then some ⟨8, Kind.uintK, some 0⟩
  else if fid = 2 then some ⟨8, Kind.uintK, some 0⟩
  else if fid = 3 then some ⟨8, Kind.uintK, some 0⟩
  else if fid = 4 then some ⟨28, Kind.bytesK, none⟩
  else if fid = 5 then some ⟨16, Kind.uintK, none⟩
  else if fid = 6 then some ⟨65, Kind.bytesK, none⟩
  else if fid = 7 then some ⟨12, Kind.u64ListK, none⟩
  else none

/-- A record allocated for the full demonstration field set. -/
def rFull : Record :=
  { schema := demoSchema, allocated := [1, 2, 3, 4, 5, 6, 7],
    activity := [1, 2, 3, 4, 5, 6, 7],
    store := [], parent := Parent.noParent }

/-- A record allocated for the restricted subset `{2, 4}`: field 2 is the
only member of oneof-group 0 in the subset. -/
def rRestricted : Record :=
  { schema := demoSchema, allocated := [2, 4], activity := [2, 4],
    store := [], parent := Parent.noParent }

/-- A record owned by a Table (handle 9). -/
def rOwnedByTable : Record :=
  { schema := demoSchema, allocated := [1], activity := [1], store := [],
    parent := Parent.table 9 }

theorem applyOneof_schema (r : Record) (fid : Nat) :
    (applyOneof r fid).schema = r.schema := by
  unfold applyOneof
  cases groupOf r fid <;> rfl

theorem applyOneof_parent (r : Record) (fid : Nat) :
    (applyOneof r fid).parent = r.parent := by
  unfold applyOneof
  cases groupOf r fid <;> rfl

theorem applyOneof_store (r : Record) (fid : Nat) :
    (applyOneof r fid).store = r.store := by
  unfold applyOneof
  cases groupOf r fid <;> rfl

theorem commit_schema (r : Record) (fid : Nat) (val : Value) :
    (commit r fid val).schema = r.schema := by
  unfold commit
  exact applyOneof_schema r fid

theorem commit_parent (r : Record) (fid : Nat) (val : Value) :
    (commit r fid val).parent = r.parent := by
  unfold commit
  exact applyOneof_parent r fid

theorem commit_store (r : Record) (fid : Nat) (val : Value) :
    (commit r fid val).store = (fid, val) :: r.store := by
  unfold commit
  dsimp only
  rw [applyOneof_store]

theorem lookup_commit_self (r : Record) (fid : Nat) (val : Value) :
    lookupStore (commit r fid val).store fid = some val := by
  rw [commit_store]
  unfold lookupStore
  rw [if_pos rfl]

theorem mem_commit_activity_self (r : Record) (fid : Nat) (val : Value)
    (h : fid ∈ r.activity) : fid ∈ (commit r fid val).activity := by
  show fid ∈ (applyOneof r fid).activity
  unfold applyOneof
  cases groupOf r fid with
  | none => exact h
  | some g => exact List.mem_cons_self _ _

theorem mem_commit_activity_of_group (r : Record) (fid g : Nat) (val : Value)
    (hg : groupOf r fid = some g) : fid ∈ (commit r fid val).activity := by
  show fid ∈ (applyOneof r fid).activity
  unfold applyOneof
  rw [hg]
  exact List.mem_cons_self _ _

theorem not_mem_commit_activity (r : Record) (fid f2 g : Nat) (val : Value)
    (hne : f2 ≠ fid) (hg : groupOf r fid = some g)
    (hg2 : groupOf r f2 = some g) :
    f2 ∉ (commit r fid val).activity := by
  show f2 ∉ (applyOneof r fid).activity
  unfold applyOneof
  rw [hg]
  simp only [List.mem_cons, List.mem_filter, decide_eq_true_eq]
  rintro (h | h)
  · exact hne h
  · exact h.2 hg2

theorem applyOneof_allocated (r : Record) (fid : Nat) :
    (applyOneof r fid).allocated = r.allocated := by
  unfold applyOneof
  cases groupOf r fid <;> rfl

theorem commit_allocated (r : Record) (fid : Nat) (val : Value) :
    (commit r fid val).allocated = r.allocated := by
  unfold commit
  exact applyOneof_allocated r fid

theorem setU64_success_inv (r : Record) (fid v : Nat)
    (h : (setU64 r fid v).1 = Status.success) :
    ∃ info, r.schema fid = some info ∧ fid ∈ r.allocated ∧
      info.kind = Kind.uintK ∧ v < 2 ^ info.width ∧
      (setU64 r fid v).2
        = commit r fid (Value.vBytes (toBytesBE (ceilBytes info.width) v)) := by
  revert h
  unfold setU64
  cases hs : r.schema fid with
  | none => intro h; exact absurd h (by simp)
  | some info =>
    dsimp only
    by_cases ha : fid ∈ r.allocated
    · by_cases hk : info.kind = Kind.uintK
      · by_cases hv : v < 2 ^ info.width
        · rw [if_pos ha, if_pos hk, if_pos hv]
          intro _
          exact ⟨info, rfl, ha, hk, hv, rfl⟩
        · rw [if_pos ha, if_pos hk, if_neg hv]
          intro h; exact absurd h (by simp)
      · rw [if_pos ha, if_neg hk]
        intro h; exact absurd h (by simp)
    · rw [if_neg ha]
      intro h; exact absurd h (by simp)

theorem setU64_fail_frame (r : Record) (fid v : Nat)
    (h : (setU64 r fid v).1 ≠ Status.success) : (setU64 r fid v).2 = r := by
  revert h
  unfold setU64
  cases r.schema fid with
  | none => intro _; rfl
  | some info =>
    dsimp only
    by_cases ha : fid ∈ r.allocated
    · by_cases hk : info.kind = Kind.uintK
      · by_cases hv : v < 2 ^ info.width
        · rw [if_pos ha, if_pos hk, if_pos hv]
          intro h; exact absurd rfl h
        · rw [if_pos ha, if_pos hk, if_neg hv]
          intro _; rfl
      · rw [if_pos ha, if_neg hk]
        intro _; rfl
    · rw [if_neg ha]
      intro _; rfl

theorem setBytes_fail_frame (r : Record) (fid : Nat) (bs : List Nat)
    (h : (setBytes r fid bs).1 ≠ Status.success) : (setBytes r fid bs).2 = r := by
  revert h
  unfold setBytes
  cases r.schema fid with
  | none => intro _; rfl
  | some info =>
    dsimp only
    by_cases ha : fid ∈ r.allocated
    · by_cases hk : info.kind = Kind.uintK ∨ info.kind = Kind.bytesK
      · by_cases hl : bs.length = ceilBytes info.width
        · rw [if_pos ha, if_pos hk, if_pos hl]
          intro h; exact absurd rfl h
        · rw [if_pos ha, if_pos hk, if_neg hl]
          intro _; rfl
      · rw [if_pos ha, if_neg hk]
        intro _; rfl
    · rw [if_neg ha]
      intro _; rfl

theorem setTyped_fail_frame (r : Record) (fid : Nat) (k : Kind) (val : Value)
    (h : (setTyped r fid k val).1 ≠ Status.success) :
    (setTyped r fid k val).2 = r := by
  revert h
  unfold setTyped
  cases r.schema fid with
  | none => intro _; rfl
  | some info =>
    dsimp only
    by_cases ha : fid ∈ r.allocated
    · by_cases hk : info.kind = k
      · rw [if_pos ha, if_pos hk]
        intro h; exact absurd rfl h
      · rw [if_pos ha, if_neg hk]
        intro _; rfl
    · rw [if_neg ha]
      intro _; rfl

theorem setU64_parent (r : Record) (fid v : Nat) :
    ((setU64 r fid v).2).parent = r.parent := by
  by_cases h : (setU64 r fid v).1 = Status.success
  · obtain ⟨info, _, _, _, _, heq⟩ := setU64_success_inv r fid v h
    rw [heq, commit_parent]
  · rw [setU64_fail_frame r fid v h]

theorem setBytes_parent (r : Record) (fid : Nat) (bs : List Nat) :
    ((setBytes r fid bs).2).parent = r.parent := by
  unfold setBytes
  cases r.schema fid with
  | none => rfl
  | some info =>
    dsimp only
    by_cases ha : fid ∈ r.allocated
    · by_cases hk : info.kind = Kind.uintK ∨ info.kind = Kind.bytesK
      · by_cases hl : bs.length = ceilBytes info.width
        · rw [if_pos ha, if_pos hk, if_pos hl]
          exact commit_parent r fid _
        · rw [if_pos ha, if_pos hk, if_neg hl]
      · rw [if_pos ha, if_neg hk]
    · rw [if_neg ha]

theorem setTyped_parent (r : Record) (fid : Nat) (k : Kind) (val : Value) :
    ((setTyped r fid k val).2).parent = r.parent := by
  unfold setTyped
  cases r.schema fid with
  | none => rfl
  | some info =>
    dsimp only
    by_cases ha : fid ∈ r.allocated
    · by_cases hk : info.kind = k
      · rw [if_pos ha, if_pos hk]
        exact commit_parent r fid _
      · rw [if_pos ha, if_neg hk]
    · rw [if_neg ha]

/-- C1: for every bit width `w` in `[1,64]` and every value `v < 2^w`,
`decodeScalar(w, encodeScalar(w, v)) = v`; equivalently, after a
successful raw ≤64-bit `setValue` on an active scalar field of width `w`,
`getValue` on that field returns the same value. -/
theorem scalar_roundTrip (w v : Nat) (hw1 : 1 ≤ w) (hw2 : w ≤ 64)
    (hv : v < 2 ^ w) :
    (encodeScalar w v).bind (decodeScalar w) = .ok v ∧
    ∀ (r : Record) (fid : Nat) (info : FieldInfo),
      r.schema fid = some info → info.width = w →
      info.kind = Kind.uintK → fid ∈ r.allocated → fid ∈ r.activity →
      (setU64 r fid v).1 = Status.success ∧
      getU64 (setU64 r fid v).2 fid = .ok v := by
  refine ⟨encode_decode_roundTrip hv, ?_⟩
  intro r fid info hs hw hk ha hact
  have hv2 : v < 2 ^ info.width := by rw [hw]; exact hv
  have h2 : setU64 r fid v
      = (Status.success,
         commit r fid (Value.vBytes (toBytesBE (ceilBytes info.width) v))) := by
    unfold setU64
    rw [hs]
    dsimp only
    rw [if_pos ha, if_pos hk, if_pos hv2]
  rw [h2]
  refine ⟨rfl, ?_⟩
  show getU64 (commit r fid (Value.vBytes (toBytesBE (ceilBytes info.width) v))) fid
      = .ok v
  unfold getU64
  rw [commit_schema, hs]
  dsimp only
  rw [if_pos (mem_commit_activity_self r fid _ hact), if_pos hk,
    lookup_commit_self]
  dsimp only
  rw [fromBytesBE_toBytesBE, Nat.mod_eq_of_lt (lt_pow256_ceilBytes hv2)]

/-- C1 witness: width 8, value 200, on field 1 of the full record. -/
theorem scalar_roundTrip_witness :
    (encodeScalar 8 200).bind (decodeScalar 8) = Except.ok 200 ∧
    getU64 (setU64 rFull 1 200).2 1 = Except.ok 200 :=
  ⟨(scalar_roundTrip 8 200 (by decide) (by decide) (by decide)).1,
   ((scalar_roundTrip 8 200 (by decide) (by decide) (by decide)).2 rFull 1
     ⟨8, Kind.uintK, some 0⟩ rfl rfl rfl (by decide) (by decide)).2⟩

/-- C2: after any successful set on a oneof-group member, that member is
active and every other schema-known member of the group is inactive —
setting one member deactivates every previously active sibling, so at
most one member per group is active after any set on a group member. -/
theorem oneof_exclusivity (r : Record) (fid v g : Nat)
    (hg : groupOf r fid = some g)
    (hok : (setU64 r fid v).1 = Status.success) :
    isActive (setU64 r fid v).2 fid = .ok true ∧
    ∀ f2, f2 ≠ fid → groupOf r f2 = some g →
      isActive (setU64 r fid v).2 f2 = .ok false := by
  obtain ⟨info, hs, ha, hk, hv, heq⟩ := setU64_success_inv r fid v hok
  rw [heq]
  constructor
  · unfold isActive
    rw [commit_schema, hs]
    dsimp only
    have hm := mem_commit_activity_of_group r fid g
      (Value.vBytes (toBytesBE (ceilBytes info.width) v)) hg
    simp [hm]
  · intro f2 hne hg2
    unfold isActive
    rw [commit_schema]
    cases hs2 : r.schema f2 with
    | none =>
      unfold groupOf at hg2
      rw [hs2] at hg2
      exact absurd hg2 (by simp)
    | some info2 =>
      dsimp only
      have hnm := not_mem_commit_activity r fid f2 g
        (Value.vBytes (toBytesBE (ceilBytes info.width) v)) hne hg hg2
      simp [hnm]

/-- C2 witness: the `{1,2,3}` group of the full record, set 1 then 2:
field 2 is active and field 1 no longer is. -/
theorem oneof_exclusivity_witness :
    isActive (setU64 (setU64 rFull 1 5).2 2 6).2 2 = Except.ok true ∧
    isActive (setU64 (setU64 rFull 1 5).2 2 6).2 1 = Except.ok false :=
  ⟨(oneof_exclusivity (setU64 rFull 1 5).2 2 6 0 (by decide) (by decide)).1,
   (oneof_exclusivity (setU64 rFull 1 5).2 2 6 0 (by decide) (by decide)).2
     1 (by decide) (by decide)⟩

/-- C3: `encodeScalar w (2^w)` fails with `ValueOutOfRange` for every
width, and the raw ≤64-bit setter rejects any value needing more than the
declared width with `ValueOutOfRange`, leaving the record unchanged
(no silent truncation). -/
theorem range_rejection (w : Nat) :
    encodeScalar w (2 ^ w) = .error .valueOutOfRange ∧
    ∀ (r : Record) (fid : Nat) (info : FieldInfo) (v : Nat),
      r.schema fid = some info → fid ∈ r.allocated →
      info.kind = Kind.uintK → 2 ^ info.width ≤ v →
      setU64 r fid v = (Status.valueOutOfRange, r) := by
  constructor
  · unfold encodeScalar
    rw [if_pos (le_refl _)]
  · intro r fid info v hs ha hk hv
    unfold setU64
    rw [hs]
    dsimp only
    rw [if_pos ha, if_pos hk, if_neg (by omega)]

/-- C3 witness: width 3 at the codec; the 16-bit field 5 with value
`2^16` at the record. -/
theorem range_rejection_witness :
    encodeScalar 3 (2 ^ 3) = Except.error Status.valueOutOfRange ∧
    setU64 rFull 5 65536 = (Status.valueOutOfRange, rFull) :=
  ⟨(range_rejection 3).1,
   (range_rejection 16).2 rFull 5 ⟨16, Kind.uintK, none⟩ 65536
     rfl (by decide) rfl (by decide)⟩

/-- C4: the byte-array `setValue` and `getValue` fail with `SizeMismatch`
whenever the supplied size differs from `ceil(width/8)`, for every
declared bit width (in particular the boundary widths 1,7,8,9,28,64,65),
and a failed set leaves the record unchanged. -/
theorem byteArray_size_contract (r : Record) (fid : Nat) (info : FieldInfo)
    (bs : List Nat) (size : Nat)
    (hs : r.schema fid = some info) (hal : fid ∈ r.allocated)
    (hact : fid ∈ r.activity)
    (hk : info.kind = Kind.uintK ∨ info.kind = Kind.bytesK) :
    (bs.length ≠ ceilBytes info.width →
      setBytes r fid bs = (Status.sizeMismatch, r)) ∧
    (size ≠ ceilBytes info.width →
      getBytes r fid size = .error .sizeMismatch) := by
  constructor
  · intro hl
    unfold setBytes
    rw [hs]
    dsimp only
    rw [if_pos hal, if_pos hk, if_neg hl]
  · intro hl
    unfold getBytes
    rw [hs]
    dsimp only
    rw [if_pos hact, if_pos hk, if_neg hl]

/-- C4 witness: field 4 has width 28, so `ceil(28/8) = 4`; a 3-byte
buffer and a requested size of 3 are both rejected with `SizeMismatch`. -/
theorem byteArray_size_contract_witness :
    setBytes rFull 4 [13, 237, 190] = (Status.sizeMismatch, rFull) ∧
    getBytes rFull 4 3 = Except.error Status.sizeMismatch :=
  ⟨(byteArray_size_contract rFull 4 ⟨28, Kind.bytesK, none⟩ [13, 237, 190] 3
      rfl (by decide) (by decide) (Or.inr rfl)).1 (by decide),
   (byteArray_size_contract rFull 4 ⟨28, Kind.bytesK, none⟩ [13, 237, 190] 3
      rfl (by decide) (by decide) (Or.inr rfl)).2 (by decide)⟩

/-- C5: on a record allocated for a subset containing only member `b` of a
oneof-group, setting `b` succeeds while setting any other schema-known
member `a` fails with `InactiveField`, also after `b` has been set
(for the whole lifetime of the record). -/
theorem restricted_subset_oneof (r : Record) (a b : Nat)
    (ia ib : FieldInfo) (va vb : Nat)
    (hA : r.schema a = some ia) (hAn : a ∉ r.allocated)
    (hB : r.schema b = some ib) (hBa : b ∈ r.allocated)
    (hBk : ib.kind = Kind.uintK) (hvb : vb < 2 ^ ib.width) :
    setU64 r a va = (Status.inactiveField, r) ∧
    (setU64 r b vb).1 = Status.success ∧
    setU64 (setU64 r b vb).2 a va
      = (Status.inactiveField, (setU64 r b vb).2) := by
  have hfst : ∀ (r2 : Record), r2.schema a = some ia → a ∉ r2.allocated →
      setU64 r2 a va = (Status.inactiveField, r2) := by
    intro r2 hs2 hn2
    unfold setU64
    rw [hs2]
    dsimp only
    rw [if_neg hn2]
  have hBeq : setU64 r b vb
      = (Status.success,
         commit r b (Value.vBytes (toBytesBE (ceilBytes ib.width) vb))) := by
    unfold setU64
    rw [hB]
    dsimp only
    rw [if_pos hBa, if_pos hBk, if_pos hvb]
  refine ⟨hfst r hA hAn, ?_, ?_⟩
  · rw [hBeq]
  · rw [hBeq]
    refine hfst _ ?_ ?_
    · rw [commit_schema]
      exact hA
    · rw [commit_allocated]
      exact hAn

/-- C5 witness: `rRestricted` holds only member 2 of group `{1,2,3}`;
setting field 1 fails with `InactiveField`, setting field 2 succeeds. -/
theorem restricted_subset_oneof_witness :
    setU64 rRestricted 1 5 = (Status.inactiveField, rRestricted) ∧
    (setU64 rRestricted 2 7).1 = Status.success :=
  ⟨(restricted_subset_oneof rRestricted 1 2 ⟨8, Kind.uintK, some 0⟩
      ⟨8, Kind.uintK, some 0⟩ 5 7 rfl (by decide) rfl (by decide) rfl
      (by decide)).1,
   (restricted_subset_oneof rRestricted 1 2 ⟨8, Kind.uintK, some 0⟩
      ⟨8, Kind.uintK, some 0⟩ 5 7 rfl (by decide) rfl (by decide) rfl
      (by decide)).2.1⟩

/-- C6: every `getValue` variant fails with `NotSet` on a schema-valid,
active field that has never been written. -/
theorem unset_read (r : Record) (fid : Nat) (info : FieldInfo)
    (hs : r.schema fid = some info) (ha : fid ∈ r.activity)
    (hstore : lookupStore r.store fid = none) :
    (info.kind = Kind.uintK → getU64 r fid = .error .notSet) ∧
    ((info.kind = Kind.uintK ∨ info.kind = Kind.bytesK) →
      getBytes r fid (ceilBytes info.width) = .error .notSet) ∧
    (∀ k, info.kind = k → getTyped r fid k = .error .notSet) := by
  refine ⟨?_, ?_, ?_⟩
  · intro hk
    unfold getU64
    rw [hs]
    dsimp only
    rw [if_pos ha, if_pos hk, hstore]
  · intro hk
    unfold getBytes
    rw [hs]
    dsimp only
    rw [if_pos ha, if_pos hk, if_pos rfl, hstore]
  · intro k hk
    unfold getTyped
    rw [hs]
    dsimp only
    rw [if_pos ha, if_pos hk, hstore]

/-- C6 witness: field 5 of the freshly allocated full record reads as
`NotSet` through the raw ≤64-bit getter. -/
theorem unset_read_witness : getU64 rFull 5 = Except.error Status.notSet :=
  (unset_read rFull 5 ⟨16, Kind.uintK, none⟩ rfl (by decide) rfl).1 rfl

/-- C7: failure atomicity — every `setValue` call that returns a
non-success status leaves the record (field store, activity set, and the
oneof bookkeeping it carries) unchanged; the documented container
exception concerns only the ownership of the supplied children, which is
outside the record state. -/
theorem set_failure_atomicity (r : Record) (fid : Nat) :
    (∀ v, (setU64 r fid v).1 ≠ Status.success → (setU64 r fid v).2 = r) ∧
    (∀ bs, (setBytes r fid bs).1 ≠ Status.success →
      (setBytes r fid bs).2 = r) ∧
    (∀ k val, (setTyped r fid k val).1 ≠ Status.success →
      (setTyped r fid k val).2 = r) :=
  ⟨fun v => setU64_fail_frame r fid v,
   fun bs => setBytes_fail_frame r fid bs,
   fun k val => setTyped_fail_frame r fid k val⟩

/-- C7 witness: setting the schema-unknown field 99 fails and leaves the
full record unchanged. -/
theorem set_failure_atomicity_witness : (setU64 rFull 99 0).2 = rFull :=
  (set_failure_atomicity rFull 99).1 0 (by decide)

/-- C8: `isActive` never returns an error for a schema-valid field id; it
reports true exactly for the ids in the activity set and false for ids
outside the active subset of a partially allocated record. -/
theorem isActive_totality (r : Record) (fid : Nat) (info : FieldInfo)
    (h : r.schema fid = some info) :
    (isActive r fid = .ok true ∨ isActive r fid = .ok false) ∧
    (fid ∈ r.activity → isActive r fid = .ok true) ∧
    (fid ∉ r.activity → isActive r fid = .ok false) := by
  unfold isActive
  rw [h]
  dsimp only
  by_cases ha : fid ∈ r.activity <;> simp [ha]

/-- C8 witness: on the restricted record, schema-valid field 1 reports
inactive and field 2 reports active, each without error. -/
theorem isActive_totality_witness :
    isActive rRestricted 1 = Except.ok false ∧
    isActive rRestricted 2 = Except.ok true :=
  ⟨(isActive_totality rRestricted 1 ⟨8, Kind.uintK, some 0⟩ rfl).2.2
      (by decide),
   (isActive_totality rRestricted 2 ⟨8, Kind.uintK, some 0⟩ rfl).2.1
      (by decide)⟩

/-- C9: at most one of the Table and Learn back-references is set; when
one overload of `getParent` succeeds the other fails with `NoParent`,
when no parent applies both fail with `NoParent`, and no setter changes
the parentage over the record's lifetime. -/
theorem parent_mutual_exclusion (r : Record) :
    (∀ t, getParentTable r = .ok t →
      getParentLearn r = .error .noParent) ∧
    (∀ l, getParentLearn r = .ok l →
      getParentTable r = .error .noParent) ∧
    (r.parent = Parent.noParent →
      getParentTable r = .error .noParent ∧
      getParentLearn r = .error .noParent) ∧
    (∀ fid v, ((setU64 r fid v).2).parent = r.parent) ∧
    (∀ fid bs, ((setBytes r fid bs).2).parent = r.parent) ∧
    (∀ fid k val, ((setTyped r fid k val).2).parent = r.parent) := by
  refine ⟨?_, ?_, ?_, fun fid v => setU64_parent r fid v,
    fun fid bs => setBytes_parent r fid bs,
    fun fid k val => setTyped_parent r fid k val⟩
  · intro t ht
    unfold getParentTable at ht
    unfold getParentLearn
    cases hp : r.parent <;> rw [hp] at ht <;> simp_all
  · intro l hl
    unfold getParentLearn at hl
    unfold getParentTable
    cases hp : r.parent <;> rw [hp] at hl <;> simp_all
  · intro hp
    unfold getParentTable getParentLearn
    rw [hp]
    exact ⟨rfl, rfl⟩

/-- C9 witness: a Table-owned record rejects the Learn overload with
`NoParent`. -/
theorem parent_mutual_exclusion_witness :
    getParentLearn rOwnedByTable = Except.error Status.noParent :=
  (parent_mutual_exclusion rOwnedByTable).1 9 rfl

/-- C10: the header declares a `getValue` overload for the uint64-list
value kind (lines 270-271) but no matching `setValue` overload
(lines 64-171): uint64-list fields are read-only through this record
abstraction. -/
theorem u64List_read_only :
    AccessorKind.u64List ∈ getValueOverloads ∧
    AccessorKind.u64List ∉ setValueOverloads := by
  decide

end TDI
